import Mathlib

/-!
Verification development for the live spectator dashboard of the
Prisoners_Dilemma repository.

The embedding below follows the two core source units:

* `frontend/src/pages/AudienceView.jsx` — the `handleWsMessage` dispatch
  switch together with the component state (`tournament`, `leaderboard`,
  `currentMatch`, `matchProgress`, `graphData`) and the mutable refs
  (`baseScoresRef`, `dataPointRef`).
* the websocket hook (`useWebSocket`) — connection lifecycle: connect,
  onclose-driven reconnect after 3000 ms, keepalive interval, and the
  effect cleanup.

JavaScript objects used as string-keyed maps (`baseScoresRef.current`, the
per-point score record) are embedded as association lists with
overwrite-on-insert; `undefined` is embedded as `Option.none`; the JS
truthiness test `teamData?.id` is embedded exactly (absent team, absent id,
and the empty string are all falsy); `teamData.score || 0` becomes
`Option.getD 0`.
-/

namespace PD

/-- A string-keyed integer map, as a JS object: association list,
assignment overwrites in place or appends a fresh key. -/
abbrev ScoreMap := List (String × Int)

/-- `m[k]` on a JS object: `some v` when the key is present, `none`
(undefined) otherwise. -/
def smGet : ScoreMap → String → Option Int
  | [], _ => none
  | (k', v) :: t, k => if k' = k then some v else smGet t k

/-- `m[k] = v` on a JS object: overwrite the existing entry, else append. -/
def smInsert : ScoreMap → String → Int → ScoreMap
  | [], k, v => [(k, v)]
  | (k', v') :: t, k, v =>
      if k' = k then (k, v) :: t else (k', v') :: smInsert t k v

/-- One leaderboard row (`{id, total_score}` as consumed by
`handleWsMessage`). -/
structure Team where
  id : String
  total_score : Int
  deriving DecidableEq, Repr

/-- The tournament object. The dispatcher only ever writes `status`
(strings `idle` / `running` / `paused` / `finished`); `extra` stands for
whatever other fields the server payload carried, which the spread
`{...prev, status}` updates preserve and the fresh object `{status: idle}`
written by `tournament_reset` discards. -/
structure Tournament where
  status : String
  extra : List (String × String)
  deriving DecidableEq, Repr

/-- One participant slot of a `match_progress` payload: both `id` and
`score` may be absent. -/
structure ProgressTeam where
  id : Option String
  score : Option Int
  deriving DecidableEq, Repr

/-- A `match_progress` payload (`data.data`): the source reads the fixed
slots `team_a`, `team_b`, `team_c`, each possibly absent. -/
structure ProgressPayload where
  team_a : Option ProgressTeam
  team_b : Option ProgressTeam
  team_c : Option ProgressTeam
  deriving DecidableEq, Repr

/-- A `match_started` payload; the dispatcher stores it wholesale and
never inspects it. -/
structure MatchInfo where
  match_number : Option Nat
  participants : List String
  deriving DecidableEq, Repr

/-- One point of `graphData`: `{dataPoint: tick, <teamId>: score, ...}`. -/
structure Point where
  dataPoint : Nat
  scores : ScoreMap
  deriving DecidableEq, Repr

/-- The component state of `AudienceView` plus its mutable refs.
`leaderboard : Option _` distinguishes a real (possibly empty) array from
`undefined` stored by `setLeaderboard(data.leaderboard)` when the payload
lacks the field. -/
structure Store where
  tournament : Tournament
  leaderboard : Option (List Team)
  currentMatch : Option MatchInfo
  matchProgress : Option ProgressPayload
  graphData : List Point
  dataPoint : Nat
  baseScores : ScoreMap
  deriving DecidableEq, Repr

/-- The decoded messages, classified by `data.type`; `unknown` is every
absent or unrecognized tag (the default case of the switch). -/
inductive Msg where
  | initial_state (tournament : Tournament) (leaderboard : Option (List Team))
  | tournament_started
  | showdown_started
  | match_started (payload : MatchInfo)
  | match_progress (payload : ProgressPayload)
  | match_completed (leaderboard : Option (List Team))
  | tournament_finished (leaderboard : Option (List Team))
  | showdown_finished (leaderboard : Option (List Team))
  | tournament_paused
  | tournament_resumed
  | tournament_reset
  | unknown
  deriving DecidableEq, Repr

/-- JS truthiness of `teamData?.id`: the slot must be present, carry an
`id`, and the id must not be the empty string. -/
def truthyId : Option ProgressTeam → Option String
  | none => none
  | some td =>
      match td.id with
      | none => none
      | some s => if s = "" then none else some s

/-- `teamData.score || 0`. -/
def slotScore : Option ProgressTeam → Int
  | none => 0
  | some td => td.score.getD 0

/-- The three fixed participant slots, in source order. -/
def slots (p : ProgressPayload) : List (Option ProgressTeam) :=
  [p.team_a, p.team_b, p.team_c]

/-- The team ids a progress payload effectively references. -/
def payloadIds (p : ProgressPayload) : List String :=
  (slots p).filterMap truthyId

/-- `if (baseScores[tid] === undefined) baseScores[tid] = 0`: the lazy
baseline initialization for a first-seen team id. -/
def lazyInit (base : ScoreMap) (tid : String) : ScoreMap :=
  if (smGet base tid).isSome then base else smInsert base tid 0

/-- The body of the per-slot loop of the `match_progress` case, acting on
(point under construction, baseScores): skip a falsy slot; otherwise
lazily initialize the baseline to 0 when absent, then write
`baseline + delta` into the point. -/
def applySlot (acc : ScoreMap × ScoreMap) (slot : Option ProgressTeam) :
    ScoreMap × ScoreMap :=
  match truthyId slot with
  | none => acc
  | some tid =>
      (smInsert acc.1 tid
        ((smGet (lazyInit acc.2 tid) tid).getD 0 + slotScore slot),
       lazyInit acc.2 tid)

/-- The `match_progress` point computation: the scores of the new point
start as a copy of every current baseline entry, then the three slots are
folded over it; returns (point scores, updated baseScores). -/
def computePoint (base : ScoreMap) (p : ProgressPayload) :
    ScoreMap × ScoreMap :=
  (slots p).foldl applySlot (base, base)

/-- The sliding window: `newData.length > 100 ? newData.slice(-100) :
newData`. -/
def clip100 (l : List Point) : List Point :=
  if l.length > 100 then l.drop (l.length - 100) else l

/-- `leaderboard.forEach(team => baseScores[team.id] = team.total_score)`:
merge the leaderboard totals into the baseline map. -/
def updateBaselines (base : ScoreMap) (lb : List Team) : ScoreMap :=
  lb.foldl (fun m t => smInsert m t.id t.total_score) base

/-- The point appended by a `match_progress` event received in state `s`:
the tick counter is incremented first, then the point is built from the
pre-event baselines. -/
def progressPoint (s : Store) (p : ProgressPayload) : Point :=
  { dataPoint := s.dataPoint + 1, scores := (computePoint s.baseScores p).1 }

/-- The dispatch switch of `handleWsMessage`, one case per tag.
`tournament_started` performs its resets and then falls through into the
`showdown_started` case. -/
def handleWsMessage (s : Store) (m : Msg) : Store :=
  match m with
  | .initial_state t lb =>
      { s with
        tournament := t,
        leaderboard := some (lb.getD []),
        baseScores :=
          match lb with
          | some l => updateBaselines s.baseScores l
          | none => s.baseScores }
  | .tournament_started =>
      { s with
        graphData := [], dataPoint := 0, baseScores := [],
        tournament := { s.tournament with status := "running" } }
  | .showdown_started =>
      { s with tournament := { s.tournament with status := "running" } }
  | .match_started payload =>
      { s with currentMatch := some payload, matchProgress := none }
  | .match_progress p =>
      { s with
        matchProgress := some p,
        dataPoint := s.dataPoint + 1,
        baseScores := (computePoint s.baseScores p).2,
        graphData := clip100 (s.graphData ++ [progressPoint s p]) }
  | .match_completed lb =>
      { s with
        leaderboard := lb,
        matchProgress := none,
        baseScores :=
          match lb with
          | some l => updateBaselines s.baseScores l
          | none => s.baseScores }
  | .tournament_finished lb =>
      { s with
        tournament := { s.tournament with status := "finished" },
        leaderboard := lb,
        currentMatch := none }
  | .showdown_finished lb =>
      { s with
        tournament := { s.tournament with status := "finished" },
        leaderboard := lb,
        currentMatch := none }
  | .tournament_paused =>
      { s with tournament := { s.tournament with status := "paused" } }
  | .tournament_resumed =>
      { s with tournament := { s.tournament with status := "running" } }
  | .tournament_reset =>
      { tournament := { status := "idle", extra := [] },
        leaderboard := some [],
        currentMatch := none,
        matchProgress := none,
        graphData := [],
        dataPoint := 0,
        baseScores := [] }
  | .unknown => s

/-- The initial component state (the `useState` initial values and fresh
refs). -/
def initStore : Store :=
  { tournament := { status := "idle", extra := [] },
    leaderboard := some [],
    currentMatch := none,
    matchProgress := none,
    graphData := [],
    dataPoint := 0,
    baseScores := [] }

/-- An inbound websocket frame as seen by `ws.onmessage`: either
`JSON.parse` throws (`malformed`) or it yields a value that the switch
classifies as some `Msg` (absent / unrecognized `type` becoming
`Msg.unknown`). -/
inductive Frame where
  | malformed
  | decoded (m : Msg)
  deriving DecidableEq, Repr

/-- The connection-side state of the `useWebSocket` hook: the current
socket (`ws.current`) phase, whether a close event is queued for its
handlers, the pending reconnect timer (`reconnectTimeout.current`), the
keepalive interval, whether the effect cleanup has run, and counters of
connection attempts (`new WebSocket`) and pings sent. -/
structure SysState where
  phase : Nat
  closeQueued : Bool
  reconnectPending : Bool
  pingActive : Bool
  tornDown : Bool
  connects : Nat
  pings : Nat
  deriving DecidableEq, Repr

/-- Socket phases: 0 = connecting, 1 = open, 2 = closed. -/
def phConnecting : Nat := 0

def phOpen : Nat := 1

def phClosed : Nat := 2

/-- The events the environment can deliver to the hook: the socket handshake
completing, a server/network-initiated close, delivery of a queued close
event (running `ws.onclose`), the 3000 ms reconnect timer firing
(running `connect`), the 25000 ms keepalive interval firing, and the
effect cleanup (teardown). -/
inductive Ev where
  | openEvt
  | serverClose
  | deliverClose
  | reconnectFire
  | pingFire
  | teardown
  deriving DecidableEq, Repr

/-- One event step of the hook. Faithful points: `ws.onclose` always
schedules `setTimeout(connect, 3000)`; the cleanup clears the interval
and any pending reconnect timer and calls `ws.current.close()`, which
(when the socket was not already closed) queues a close event that is
still delivered to the attached `onclose` handler afterwards; nothing in
`connect` or `onclose` consults whether teardown has happened. -/
def step (s : SysState) (e : Ev) : SysState :=
  match e with
  | .openEvt =>
      if s.phase = phConnecting then { s with phase := phOpen } else s
  | .serverClose =>
      if s.phase = phConnecting ∨ s.phase = phOpen then
        { s with phase := phClosed, closeQueued := true }
      else s
  | .deliverClose =>
      if s.closeQueued then
        { s with closeQueued := false, reconnectPending := true }
      else s
  | .reconnectFire =>
      if s.reconnectPending then
        { s with reconnectPending := false, phase := phConnecting,
                 connects := s.connects + 1 }
      else s
  | .pingFire =>
      if s.pingActive ∧ s.phase = phOpen then
        { s with pings := s.pings + 1 }
      else s
  | .teardown =>
      if s.tornDown then s
      else
        { s with
          pingActive := false,
          reconnectPending := false,
          closeQueued := s.closeQueued ∨ s.phase ≠ phClosed,
          phase := phClosed,
          tornDown := true }

/-- The hook state right after mount: `connect()` has run once (socket
connecting, handlers attached) and the keepalive interval is armed. -/
def initSys : SysState :=
  { phase := phConnecting, closeQueued := false, reconnectPending := false,
    pingActive := true, tornDown := false, connects := 1, pings := 0 }

/-- `ws.onmessage`: `JSON.parse` inside try/catch — a malformed frame is
logged and discarded (the connection state is untouched), a decoded frame
is handed to `handleWsMessage`. -/
def onFrame (sys : SysState) (st : Store) (f : Frame) : SysState × Store :=
  match f with
  | .malformed => (sys, st)
  | .decoded m => (sys, handleWsMessage st m)

/-! ### Map lemmas -/

theorem smGet_insert_self (m : ScoreMap) (k : String) (v : Int) :
    smGet (smInsert m k v) k = some v := by
  induction m with
  | nil => simp [smInsert, smGet]
  | cons hd t ih =>
      obtain ⟨k', v'⟩ := hd
      by_cases hk : k' = k
      · simp [smInsert, hk, smGet]
      · simp [smInsert, hk, smGet, ih]

theorem smGet_insert_ne (m : ScoreMap) (k k' : String) (v : Int)
    (h : k ≠ k') : smGet (smInsert m k v) k' = smGet m k' := by
  induction m with
  | nil => simp [smInsert, smGet, h]
  | cons hd t ih =>
      obtain ⟨k0, v0⟩ := hd
      by_cases hk : k0 = k
      · subst hk; simp [smInsert, smGet, h]
      · simp [smInsert, hk, smGet, ih]

theorem lazyInit_get_self (base : ScoreMap) (tid : String) :
    smGet (lazyInit base tid) tid = some ((smGet base tid).getD 0) := by
  unfold lazyInit
  cases h : smGet base tid with
  | none => simp [h, smGet_insert_self]
  | some v => simp [h]

theorem lazyInit_get_ne (base : ScoreMap) (tid k : String) (h : tid ≠ k) :
    smGet (lazyInit base tid) k = smGet base k := by
  unfold lazyInit
  cases hb : smGet base tid with
  | none => simp [hb, smGet_insert_ne _ _ _ _ h]
  | some v => simp [hb]

theorem applySlot_other (acc : ScoreMap × ScoreMap)
    (slot : Option ProgressTeam) (k : String)
    (h : truthyId slot ≠ some k) :
    smGet (applySlot acc slot).1 k = smGet acc.1 k ∧
    smGet (applySlot acc slot).2 k = smGet acc.2 k := by
  cases hid : truthyId slot with
  | none => simp [applySlot, hid]
  | some tid =>
      have hne : tid ≠ k := fun e => h (by rw [hid, e])
      refine ⟨?_, ?_⟩
      · simp only [applySlot, hid]
        exact smGet_insert_ne _ _ _ _ hne
      · simp only [applySlot, hid]
        exact lazyInit_get_ne _ _ _ hne

theorem applySlot_hit (acc : ScoreMap × ScoreMap)
    (slot : Option ProgressTeam) (tid : String)
    (h : truthyId slot = some tid) :
    smGet (applySlot acc slot).1 tid
      = some ((smGet acc.2 tid).getD 0 + slotScore slot) ∧
    smGet (applySlot acc slot).2 tid
      = some ((smGet acc.2 tid).getD 0) := by
  refine ⟨?_, ?_⟩
  · simp only [applySlot, h]
    rw [smGet_insert_self, lazyInit_get_self]
    rfl
  · simp only [applySlot, h]
    exact lazyInit_get_self _ _

theorem updateBaselines_get_notMem (base : ScoreMap) (lb : List Team)
    (k : String) (h : k ∉ lb.map Team.id) :
    smGet (updateBaselines base lb) k = smGet base k := by
  induction lb generalizing base with
  | nil => rfl
  | cons t rest ih =>
      simp only [List.map_cons, List.mem_cons] at h
      push_neg at h
      show smGet (updateBaselines (smInsert base t.id t.total_score) rest) k
        = smGet base k
      rw [ih _ h.2, smGet_insert_ne _ _ _ _ (fun e => h.1 e.symm)]

theorem updateBaselines_get_mem (base : ScoreMap) (lb : List Team)
    (hnd : (lb.map Team.id).Nodup) (t : Team) (ht : t ∈ lb) :
    smGet (updateBaselines base lb) t.id = some t.total_score := by
  induction lb generalizing base with
  | nil => cases ht
  | cons a rest ih =>
      simp only [List.map_cons, List.nodup_cons] at hnd
      rcases List.mem_cons.mp ht with h | h
      · subst h
        show smGet (updateBaselines (smInsert base t.id t.total_score) rest) t.id
          = some t.total_score
        rw [updateBaselines_get_notMem _ _ _ hnd.1, smGet_insert_self]
      · exact ih _ hnd.2 h

/-! ### Distinctness of the slot ids under `Nodup (payloadIds p)` -/

theorem nodup_ab (p : ProgressPayload) (hnd : (payloadIds p).Nodup)
    {t t' : String} (ha : truthyId p.team_a = some t)
    (hb : truthyId p.team_b = some t') : t ≠ t' := by
  unfold payloadIds slots at hnd
  rw [List.filterMap_cons, List.filterMap_cons, List.filterMap_cons,
    List.filterMap_nil, ha, hb] at hnd
  cases hc : truthyId p.team_c <;> rw [hc] at hnd <;> simp at hnd <;> tauto

theorem nodup_ac (p : ProgressPayload) (hnd : (payloadIds p).Nodup)
    {t t' : String} (ha : truthyId p.team_a = some t)
    (hc : truthyId p.team_c = some t') : t ≠ t' := by
  unfold payloadIds slots at hnd
  rw [List.filterMap_cons, List.filterMap_cons, List.filterMap_cons,
    List.filterMap_nil, ha, hc] at hnd
  cases hb : truthyId p.team_b <;> rw [hb] at hnd <;> simp at hnd <;> tauto

theorem nodup_bc (p : ProgressPayload) (hnd : (payloadIds p).Nodup)
    {t t' : String} (hb : truthyId p.team_b = some t)
    (hc : truthyId p.team_c = some t') : t ≠ t' := by
  unfold payloadIds slots at hnd
  rw [List.filterMap_cons, List.filterMap_cons, List.filterMap_cons,
    List.filterMap_nil, hb, hc] at hnd
  cases ha : truthyId p.team_a <;> rw [ha] at hnd <;> simp at hnd <;> tauto

/-! ### The point computation, characterized key by key -/

theorem computePoint_get_of_notMem (base : ScoreMap) (p : ProgressPayload)
    (k : String) (h : k ∉ payloadIds p) :
    smGet (computePoint base p).1 k = smGet base k ∧
    smGet (computePoint base p).2 k = smGet base k := by
  have h' : ∀ slot ∈ slots p, truthyId slot ≠ some k := by
    intro slot hs he
    exact h (List.mem_filterMap.mpr ⟨slot, hs, he⟩)
  have ha := applySlot_other (base, base) p.team_a k
    (h' p.team_a (by simp [slots]))
  have hb := applySlot_other (applySlot (base, base) p.team_a) p.team_b k
    (h' p.team_b (by simp [slots]))
  have hc := applySlot_other
    (applySlot (applySlot (base, base) p.team_a) p.team_b) p.team_c k
    (h' p.team_c (by simp [slots]))
  unfold computePoint slots
  rw [List.foldl_cons, List.foldl_cons, List.foldl_cons, List.foldl_nil]
  exact ⟨by rw [hc.1, hb.1, ha.1], by rw [hc.2, hb.2, ha.2]⟩

theorem computePoint_get_slot (base : ScoreMap) (p : ProgressPayload)
    (hnd : (payloadIds p).Nodup) (slot : Option ProgressTeam)
    (hs : slot ∈ slots p) (tid : String)
    (hid : truthyId slot = some tid) :
    smGet (computePoint base p).1 tid
      = some ((smGet base tid).getD 0 + slotScore slot) ∧
    smGet (computePoint base p).2 tid
      = some ((smGet base tid).getD 0) := by
  unfold computePoint slots
  rw [List.foldl_cons, List.foldl_cons, List.foldl_cons, List.foldl_nil]
  simp only [slots, List.mem_cons, List.not_mem_nil, or_false] at hs
  rcases hs with hs | hs | hs
  · have hida : truthyId p.team_a = some tid := hs ▸ hid
    have hbne : truthyId p.team_b ≠ some tid :=
      fun h => nodup_ab p hnd hida h rfl
    have hcne : truthyId p.team_c ≠ some tid :=
      fun h => nodup_ac p hnd hida h rfl
    have h1 := applySlot_hit (base, base) p.team_a tid hida
    have h2 := applySlot_other (applySlot (base, base) p.team_a) p.team_b tid hbne
    have h3 := applySlot_other
      (applySlot (applySlot (base, base) p.team_a) p.team_b) p.team_c tid hcne
    rw [hs]
    exact ⟨by rw [h3.1, h2.1, h1.1], by rw [h3.2, h2.2, h1.2]⟩
  · have hidb : truthyId p.team_b = some tid := hs ▸ hid
    have hane : truthyId p.team_a ≠ some tid :=
      fun h => nodup_ab p hnd h hidb rfl
    have hcne : truthyId p.team_c ≠ some tid :=
      fun h => nodup_bc p hnd hidb h rfl
    have h1 := applySlot_other (base, base) p.team_a tid hane
    have h2 := applySlot_hit (applySlot (base, base) p.team_a) p.team_b tid hidb
    have h3 := applySlot_other
      (applySlot (applySlot (base, base) p.team_a) p.team_b) p.team_c tid hcne
    rw [hs]
    refine ⟨?_, ?_⟩
    · rw [h3.1, h2.1, h1.2]
    · rw [h3.2, h2.2, h1.2]
  · have hidc : truthyId p.team_c = some tid := hs ▸ hid
    have hane : truthyId p.team_a ≠ some tid :=
      fun h => nodup_ac p hnd h hidc rfl
    have hbne : truthyId p.team_b ≠ some tid :=
      fun h => nodup_bc p hnd h hidc rfl
    have h1 := applySlot_other (base, base) p.team_a tid hane
    have h2 := applySlot_other (applySlot (base, base) p.team_a) p.team_b tid hbne
    have h3 := applySlot_hit
      (applySlot (applySlot (base, base) p.team_a) p.team_b) p.team_c tid hidc
    rw [hs]
    refine ⟨?_, ?_⟩
    · rw [h3.1, h2.2, h1.2]
    · rw [h3.2, h2.2, h1.2]

/-! ### Window lemma -/

theorem clip100_length_le (l : List Point) : (clip100 l).length ≤ 100 := by
  unfold clip100
  by_cases h : l.length > 100
  · simp [h]; omega
  · simp [h]; omega

/-! ### Example inputs used by the witnesses -/

/-- The progress payload of the spec example: `team_a = {id A, score 5}`,
`team_b = {id B, score 2}`. -/
def exP : ProgressPayload :=
  { team_a := some { id := some "A", score := some 5 },
    team_b := some { id := some "B", score := some 2 },
    team_c := none }

/-- The store after the spec example leaderboard `[A: 40, B: 10]` arrived
via `initial_state`. -/
def exS : Store :=
  handleWsMessage initStore
    (.initial_state { status := "idle", extra := [] }
      (some [{ id := "A", total_score := 40 },
             { id := "B", total_score := 10 }]))

/-- A store whose timeseries already holds exactly 100 points. -/
def s100 : Store :=
  { initStore with
      graphData := List.replicate 100 { dataPoint := 0, scores := [] } }

/-- The spec scenario leaderboard delivered by `match_completed`. -/
def exLb : List Team :=
  [{ id := "A", total_score := 7 }, { id := "B", total_score := 3 }]

/-! ### The claims -/

/-- Claim C1: every `match_progress` event stores the payload in
`matchProgress`, increments the tick counter by exactly one, and appends
exactly one timeseries point; the scores of that point coincide with the
current baseline for every team id not referenced by the payload, and for
each participant slot carrying a (truthy) id they equal that baseline
(0 when the team has no baseline yet) plus the match-relative delta of
the slot. -/
theorem match_progress_point_correct (s : Store) (p : ProgressPayload)
    (hnd : (payloadIds p).Nodup) :
    (handleWsMessage s (.match_progress p)).matchProgress = some p ∧
    (handleWsMessage s (.match_progress p)).dataPoint = s.dataPoint + 1 ∧
    (handleWsMessage s (.match_progress p)).graphData
      = clip100 (s.graphData ++ [progressPoint s p]) ∧
    (progressPoint s p).dataPoint = s.dataPoint + 1 ∧
    (∀ slot ∈ slots p, ∀ tid, truthyId slot = some tid →
      smGet (progressPoint s p).scores tid
        = some ((smGet s.baseScores tid).getD 0 + slotScore slot)) ∧
    (∀ tid, tid ∉ payloadIds p →
      smGet (progressPoint s p).scores tid = smGet s.baseScores tid) := by
  refine ⟨rfl, rfl, rfl, rfl, ?_, ?_⟩
  · intro slot hs tid hid
    exact (computePoint_get_slot s.baseScores p hnd slot hs tid hid).1
  · intro tid h
    exact (computePoint_get_of_notMem s.baseScores p tid h).1

/-- Witness for C1, on the spec example: after the leaderboard
`[A: 40, B: 10]` and the progress payload `team_a = (A, 5)`,
`team_b = (B, 2)`, the appended point maps A to 45 and B to 12. -/
theorem match_progress_point_correct_witness :
    ((payloadIds exP).Nodup ∧
      smGet exS.baseScores "A" = some 40 ∧
      smGet exS.baseScores "B" = some 10 ∧
      smGet (progressPoint exS exP).scores "A" = some 45 ∧
      smGet (progressPoint exS exP).scores "B" = some 12) ∧
    ((handleWsMessage exS (.match_progress exP)).matchProgress = some exP ∧
      (handleWsMessage exS (.match_progress exP)).dataPoint = exS.dataPoint + 1 ∧
      (handleWsMessage exS (.match_progress exP)).graphData
        = clip100 (exS.graphData ++ [progressPoint exS exP]) ∧
      (progressPoint exS exP).dataPoint = exS.dataPoint + 1 ∧
      (∀ slot ∈ slots exP, ∀ tid, truthyId slot = some tid →
        smGet (progressPoint exS exP).scores tid
          = some ((smGet exS.baseScores tid).getD 0 + slotScore slot)) ∧
      (∀ tid, tid ∉ payloadIds exP →
        smGet (progressPoint exS exP).scores tid = smGet exS.baseScores tid)) :=
  ⟨by decide, match_progress_point_correct exS exP (by decide)⟩

/-- Claim C2: from the initial state, no sequence of dispatched events
ever makes the timeseries longer than 100 points, and a `match_progress`
hitting a timeseries of length 100 yields exactly the last 100 points of
the appended sequence (FIFO eviction of the oldest point). -/
theorem graphData_window_bound :
    (∀ msgs : List Msg,
      (msgs.foldl handleWsMessage initStore).graphData.length ≤ 100) ∧
    (∀ (s : Store) (p : ProgressPayload), s.graphData.length = 100 →
      (handleWsMessage s (.match_progress p)).graphData
        = (s.graphData ++ [progressPoint s p]).drop 1) := by
  constructor
  · have hstep : ∀ (s : Store) (m : Msg), s.graphData.length ≤ 100 →
        (handleWsMessage s m).graphData.length ≤ 100 := by
      intro s m h
      cases m <;> simp [handleWsMessage] <;>
        first
          | exact h
          | exact clip100_length_le _
    have hfold : ∀ (msgs : List Msg) (s : Store), s.graphData.length ≤ 100 →
        (msgs.foldl handleWsMessage s).graphData.length ≤ 100 := by
      intro msgs
      induction msgs with
      | nil => intro s h; exact h
      | cons m rest ih => intro s h; exact ih _ (hstep s m h)
    intro msgs
    exact hfold msgs initStore (by simp [initStore])
  · intro s p h
    show clip100 (s.graphData ++ [progressPoint s p]) = _
    simp [clip100, h]

/-- Witness for C2: a store holding exactly 100 points, hit by the
example progress payload. -/
theorem graphData_window_bound_witness :
    s100.graphData.length = 100 ∧
    (handleWsMessage s100 (.match_progress exP)).graphData
      = (s100.graphData ++ [progressPoint s100 exP]).drop 1 :=
  ⟨by simp [s100, initStore],
   graphData_window_bound.2 s100 exP (by simp [s100, initStore])⟩

/-- Claim C3: `tournament_started` unconditionally resets the timeseries,
the tick counter and the baselines (even when already empty) and also
sets the status to running; `showdown_started` only sets the status to
running and leaves timeseries, tick counter and baselines exactly as
they were. -/
theorem started_fallthrough_asymmetry (s : Store) :
    (handleWsMessage s .tournament_started).graphData = [] ∧
    (handleWsMessage s .tournament_started).dataPoint = 0 ∧
    (handleWsMessage s .tournament_started).baseScores = [] ∧
    (handleWsMessage s .tournament_started).tournament.status = "running" ∧
    (handleWsMessage s .showdown_started).tournament.status = "running" ∧
    (handleWsMessage s .showdown_started).graphData = s.graphData ∧
    (handleWsMessage s .showdown_started).dataPoint = s.dataPoint ∧
    (handleWsMessage s .showdown_started).baseScores = s.baseScores :=
  ⟨rfl, rfl, rfl, rfl, rfl, rfl, rfl, rfl⟩

/-- Claim C4 fails on the code: teardown with an open socket closes it,
but the attached `onclose` handler still runs when that close event is
delivered, scheduling the 3000 ms reconnect timer, which then runs
`connect` — a reconnection after teardown. The trace below exhibits it:
after mount and a completed handshake, the cleanup runs (`tornDown`,
one connection so far), then the close event is delivered (a reconnect
becomes pending after teardown), then the timer fires (a second
connection attempt is performed). -/
theorem teardown_reconnect_bug :
    (List.foldl step initSys [Ev.openEvt, Ev.teardown]).tornDown = true ∧
    (List.foldl step initSys [Ev.openEvt, Ev.teardown]).connects = 1 ∧
    (List.foldl step initSys [Ev.openEvt, Ev.teardown]).reconnectPending = false ∧
    (List.foldl step initSys
      [Ev.openEvt, Ev.teardown, Ev.deliverClose]).reconnectPending = true ∧
    (List.foldl step initSys
      [Ev.openEvt, Ev.teardown, Ev.deliverClose, Ev.reconnectFire]).connects = 2 := by
  decide

/-- Counterexample for claim C5: `initial_state` merges the payload
leaderboard into the baseline map instead of reinitializing it — a prior
baseline entry for a team absent from the payload leaderboard survives,
so the resulting map does not map exactly the listed team ids. -/
theorem initial_state_exact_baseline_counterexample :
    smGet (handleWsMessage { initStore with baseScores := [("X", 5)] }
        (.initial_state { status := "idle", extra := [] }
          (some [{ id := "A", total_score := 40 }]))).baseScores "X"
      = some 5 ∧
    "X" ∉ List.map Team.id [({ id := "A", total_score := 40 } : Team)] := by
  decide

/-- Claim C5 as amended: `initial_state` sets the tournament to the
payload tournament and the leaderboard to the payload leaderboard (empty
when absent), and merges the leaderboard totals into the baseline map:
every listed team maps to its total, while baseline entries of teams not
listed keep their prior value (when the payload has no leaderboard the
baselines are untouched). -/
theorem initial_state_merges_baseline (s : Store) (t : Tournament)
    (l : List Team) (hnd : (l.map Team.id).Nodup) :
    (handleWsMessage s (.initial_state t (some l))).tournament = t ∧
    (handleWsMessage s (.initial_state t (some l))).leaderboard = some l ∧
    (∀ team ∈ l,
      smGet (handleWsMessage s (.initial_state t (some l))).baseScores team.id
        = some team.total_score) ∧
    (∀ k, k ∉ l.map Team.id →
      smGet (handleWsMessage s (.initial_state t (some l))).baseScores k
        = smGet s.baseScores k) ∧
    (handleWsMessage s (.initial_state t none)).leaderboard = some [] ∧
    (handleWsMessage s (.initial_state t none)).baseScores = s.baseScores := by
  refine ⟨rfl, rfl, ?_, ?_, rfl, rfl⟩
  · intro team ht
    exact updateBaselines_get_mem s.baseScores l hnd team ht
  · intro k hk
    exact updateBaselines_get_notMem s.baseScores l k hk

/-- Witness for the amended C5: a prior baseline `X = 5`, an
`initial_state` with leaderboard `[A: 40, B: 10]`. -/
theorem initial_state_merges_baseline_witness :
    ((List.map Team.id [({ id := "A", total_score := 40 } : Team),
        { id := "B", total_score := 10 }]).Nodup) ∧
    (handleWsMessage { initStore with baseScores := [("X", 5)] }
        (.initial_state { status := "idle", extra := [] }
          (some [{ id := "A", total_score := 40 },
                 { id := "B", total_score := 10 }]))).tournament
      = { status := "idle", extra := [] } ∧
    (handleWsMessage { initStore with baseScores := [("X", 5)] }
        (.initial_state { status := "idle", extra := [] }
          (some [{ id := "A", total_score := 40 },
                 { id := "B", total_score := 10 }]))).leaderboard
      = some [{ id := "A", total_score := 40 },
              { id := "B", total_score := 10 }] ∧
    (∀ team ∈ [({ id := "A", total_score := 40 } : Team),
        { id := "B", total_score := 10 }],
      smGet (handleWsMessage { initStore with baseScores := [("X", 5)] }
          (.initial_state { status := "idle", extra := [] }
            (some [{ id := "A", total_score := 40 },
                   { id := "B", total_score := 10 }]))).baseScores team.id
        = some team.total_score) ∧
    (∀ k, k ∉ List.map Team.id [({ id := "A", total_score := 40 } : Team),
        { id := "B", total_score := 10 }] →
      smGet (handleWsMessage { initStore with baseScores := [("X", 5)] }
          (.initial_state { status := "idle", extra := [] }
            (some [{ id := "A", total_score := 40 },
                   { id := "B", total_score := 10 }]))).baseScores k
        = smGet { initStore with baseScores := [("X", 5)] }.baseScores k) ∧
    (handleWsMessage { initStore with baseScores := [("X", 5)] }
        (.initial_state { status := "idle", extra := [] } none)).leaderboard
      = some [] ∧
    (handleWsMessage { initStore with baseScores := [("X", 5)] }
        (.initial_state { status := "idle", extra := [] } none)).baseScores
      = { initStore with baseScores := [("X", 5)] }.baseScores :=
  ⟨by decide,
   initial_state_merges_baseline
     { initStore with baseScores := [("X", 5)] }
     { status := "idle", extra := [] }
     [{ id := "A", total_score := 40 }, { id := "B", total_score := 10 }]
     (by decide)⟩

/-- Claim C6: a `match_completed` event carrying a leaderboard replaces
the stored leaderboard, clears `matchProgress`, and updates the baseline
of every listed team to its reported total. -/
theorem match_completed_updates_baseline (s : Store) (l : List Team)
    (hnd : (l.map Team.id).Nodup) :
    (handleWsMessage s (.match_completed (some l))).leaderboard = some l ∧
    (handleWsMessage s (.match_completed (some l))).matchProgress = none ∧
    (∀ team ∈ l,
      smGet (handleWsMessage s (.match_completed (some l))).baseScores team.id
        = some team.total_score) := by
  refine ⟨rfl, rfl, ?_⟩
  intro team ht
  exact updateBaselines_get_mem s.baseScores l hnd team ht

/-- Witness for C6: the spec scenario leaderboard `[A: 7, B: 3]`. -/
theorem match_completed_updates_baseline_witness :
    ((exLb.map Team.id).Nodup) ∧
    (handleWsMessage exS (.match_completed (some exLb))).leaderboard
      = some exLb ∧
    (handleWsMessage exS (.match_completed (some exLb))).matchProgress
      = none ∧
    (∀ team ∈ exLb,
      smGet (handleWsMessage exS (.match_completed (some exLb))).baseScores
          team.id
        = some team.total_score) :=
  ⟨by decide, match_completed_updates_baseline exS exLb (by decide)⟩

/-- Claim C7: `tournament_reset` yields the same fixed state from every
prior state (idle status with no other tournament fields, empty
leaderboard, no current match or progress, empty timeseries, tick 0,
empty baselines); being constant, it is idempotent. -/
theorem tournament_reset_constant (s : Store) :
    handleWsMessage s .tournament_reset =
      { tournament := { status := "idle", extra := [] },
        leaderboard := some [],
        currentMatch := none,
        matchProgress := none,
        graphData := [],
        dataPoint := 0,
        baseScores := [] } ∧
    handleWsMessage (handleWsMessage s .tournament_reset) .tournament_reset
      = handleWsMessage s .tournament_reset :=
  ⟨rfl, rfl⟩

/-- Claim C8: a `match_progress` slot referencing a team id with no
baseline entry first initializes that baseline to 0 and then adds the
delta, so the appended point carries the delta alone and the stored
baseline ends up 0. -/
theorem lazy_baseline_initialization (s : Store) (p : ProgressPayload)
    (slot : Option ProgressTeam) (tid : String)
    (hs : slot ∈ slots p) (hid : truthyId slot = some tid)
    (hnew : smGet s.baseScores tid = none)
    (hnd : (payloadIds p).Nodup) :
    smGet (progressPoint s p).scores tid = some (slotScore slot) ∧
    smGet (handleWsMessage s (.match_progress p)).baseScores tid = some 0 := by
  have h := computePoint_get_slot s.baseScores p hnd slot hs tid hid
  rw [hnew] at h
  exact ⟨by simpa using h.1, by simpa using h.2⟩

/-- Witness for C8: the example payload fed to the fresh store, whose
baseline map is empty — team A gets baseline 0 and point value 5. -/
theorem lazy_baseline_initialization_witness :
    (exP.team_a ∈ slots exP ∧
      truthyId exP.team_a = some "A" ∧
      smGet initStore.baseScores "A" = none ∧
      (payloadIds exP).Nodup) ∧
    (smGet (progressPoint initStore exP).scores "A"
        = some (slotScore exP.team_a) ∧
      smGet (handleWsMessage initStore (.match_progress exP)).baseScores "A"
        = some 0) :=
  ⟨⟨by decide, by decide, by decide, by decide⟩,
   lazy_baseline_initialization initStore exP exP.team_a "A"
     (by decide) (by decide) (by decide) (by decide)⟩

/-- Claim C9: a malformed frame and a decoded frame with an absent or
unrecognized tag both leave the whole store and the connection state
untouched. -/
theorem malformed_frames_ignored (sys : SysState) (st : Store) :
    onFrame sys st .malformed = (sys, st) ∧
    onFrame sys st (.decoded .unknown) = (sys, st) :=
  ⟨rfl, rfl⟩

/-- Claim C10: when the payload of `match_completed`,
`tournament_finished` or `showdown_finished` lacks a leaderboard, the
stored leaderboard is overwritten with the absent value (undefined) —
neither kept nor defaulted — and on `match_completed` the baseline update
is skipped entirely; `initial_state` by contrast defaults an absent
leaderboard to the empty list. -/
theorem absent_leaderboard_overwrites (s : Store) (t : Tournament) :
    (handleWsMessage s (.match_completed none)).leaderboard = none ∧
    (handleWsMessage s (.match_completed none)).baseScores = s.baseScores ∧
    (handleWsMessage s (.tournament_finished none)).leaderboard = none ∧
    (handleWsMessage s (.showdown_finished none)).leaderboard = none ∧
    (handleWsMessage s (.initial_state t none)).leaderboard = some [] :=
  ⟨rfl, rfl, rfl, rfl, rfl⟩

end PD
